import Mathlib

/-!
Verification of the Cognito-Health ingestion pipeline (src/app.py) against its
natural-language specification.  The upload handler `DataUpload.post`, the
marshmallow `PatientDataSchema`, the Spark `dropna` step and the per-row Cosmos
upsert loop are shallowly embedded as executable Lean functions; the external
collaborators (the Cosmos container and the Keras classifier) are modelled from
the spec's collaborator contracts (section 6).
-/

deriving instance DecidableEq for Except

/-- Python's `s.endswith(suffix)`, over the underlying character lists. -/
def strEndsWith (s suffix : String) : Bool :=
  decide (suffix.data.reverse = s.data.reverse.take suffix.data.length)

/-- A cell value of one parsed CSV row, as produced by
`pd.read_csv(...).to_dict('records')`: an integer, a finite float (modelled as a
rational), a string, or a null (pandas `NaN`). -/
inductive Value where
  | vInt (n : Int)
  | vFloat (q : ℚ)
  | vStr (s : String)
  | vNull
deriving DecidableEq, Repr

/-- One raw row: the field-name/value mapping `df.to_dict('records')` yields.
Python dicts have unique keys; theorems that need this carry a `Nodup`
hypothesis on the key list. -/
abbrev Row := List (String × Value)

/-- Dictionary field lookup on a raw row. -/
def getField (r : Row) (k : String) : Option Value :=
  (r.find? (fun p => decide (p.1 = k))).map Prod.snd

/-- A parsed absolute instant, the result of marshmallow's `DateTime` field
deserialising an ISO-8601 string. -/
structure DateTime where
  year : Nat
  month : Nat
  day : Nat
  hour : Nat
  minute : Nat
  second : Nat
deriving DecidableEq, Repr

/-- Numeric value of one decimal digit character. -/
def digitVal (c : Char) : Option Nat :=
  if c.isDigit then some (c.toNat - 48) else none

/-- Two decimal digit characters to a number. -/
def digits2 (a b : Char) : Option Nat :=
  match digitVal a, digitVal b with
  | some x, some y => some (10 * x + y)
  | _, _ => none

/-- Four decimal digit characters to a number. -/
def digits4 (a b c d : Char) : Option Nat :=
  match digits2 a b, digits2 c d with
  | some x, some y => some (100 * x + y)
  | _, _ => none

/-- Range checks marshmallow's ISO parser performs on the parsed components. -/
def mkDateTime (y mo d h mi s : Nat) : Option DateTime :=
  if 1 ≤ mo ∧ mo ≤ 12 ∧ 1 ≤ d ∧ d ≤ 31 ∧ h ≤ 23 ∧ mi ≤ 59 ∧ s ≤ 59 then
    some ⟨y, mo, d, h, mi, s⟩
  else none

/-- Parses the character sequence `YYYY-MM-DDTHH:MM:SS`. -/
def parseDateTimeCore (cs : List Char) : Option DateTime :=
  match cs with
  | [y1, y2, y3, y4, '-', mo1, mo2, '-', d1, d2, 'T',
     h1, h2, ':', mi1, mi2, ':', s1, s2] =>
    match digits4 y1 y2 y3 y4, digits2 mo1 mo2, digits2 d1 d2,
          digits2 h1 h2, digits2 mi1 mi2, digits2 s1 s2 with
    | some y, some mo, some d, some h, some mi, some s => mkDateTime y mo d h mi s
    | _, _, _, _, _, _ => none
  | _ => none

/-- Drops one trailing `Z` timezone designator. -/
def stripZ (cs : List Char) : List Char :=
  match cs.getLast? with
  | some 'Z' => cs.dropLast
  | _ => cs

/-- Models marshmallow's ISO-8601 datetime parsing, restricted to the
`YYYY-MM-DDTHH:MM:SS` / `YYYY-MM-DDTHH:MM:SSZ` forms this development
exercises; every claim here is insensitive to the exact parse grammar. -/
def parseDateTime (s : String) : Option DateTime :=
  parseDateTimeCore (stripZ s.data)

/-- Digit-string accumulator for Python's `int(str)`. -/
def digitsToNatAux : List Char → Nat → Option Nat
  | [], acc => some acc
  | c :: cs, acc =>
    match digitVal c with
    | some d => digitsToNatAux cs (10 * acc + d)
    | none => none

/-- All-digits string to a number; empty input is invalid. -/
def digitsToNat : List Char → Option Nat
  | [] => none
  | cs => digitsToNatAux cs 0

/-- Python's `int(s)` on a string: optional sign then decimal digits
(whitespace/underscore tolerance omitted; no claim exercises it). -/
def parseIntString (s : String) : Option Int :=
  match s.data with
  | '-' :: cs => (digitsToNat cs).map (fun n => -(n : Int))
  | '+' :: cs => (digitsToNat cs).map (fun n => (n : Int))
  | cs => (digitsToNat cs).map (fun n => (n : Int))

/-- Python's `int(float)`: truncation toward zero. -/
def ratTrunc (q : ℚ) : Int :=
  q.num.tdiv (q.den : Int)

/-- Python's `int(value)` as marshmallow's non-strict `Integer` field applies
it: integers pass through, finite floats truncate toward zero, numeric strings
parse, `NaN` (and anything else) raises. -/
def coerceInt : Value → Option Int
  | .vInt n => some n
  | .vFloat q => some (ratTrunc q)
  | .vStr s => parseIntString s
  | .vNull => none

/-- The per-field validation errors `PatientDataSchema` can report, named after
the spec's error taxonomy (section 7) with marshmallow's finer distinctions
kept. -/
inductive FieldError where
  | missingRequired (field : String)
  | notAString (field : String)
  | notAnInteger (field : String)
  | outOfRange (field : String)
  | notADateTime (field : String)
  | unknownField (field : String)
deriving DecidableEq, Repr

/-- marshmallow `String(required=True)`: missing key is an error, any string
(including the empty string) is accepted, non-strings are rejected. -/
def validateRequiredString (field : String) : Option Value → Except FieldError String
  | none => .error (.missingRequired field)
  | some (.vStr s) => .ok s
  | some _ => .error (.notAString field)

/-- The `patient_id` field of `PatientDataSchema` (src/app.py line 48). -/
def validatePatientId (v : Option Value) : Except FieldError String :=
  validateRequiredString "patient_id" v

/-- The `disease` field of `PatientDataSchema` (src/app.py line 50). -/
def validateDisease (v : Option Value) : Except FieldError String :=
  validateRequiredString "disease" v

/-- The `age` field (src/app.py line 49): optional non-strict `Integer` with
`validate.Range(min=0, max=120)` applied to the coerced value. -/
def validateAge : Option Value → Except FieldError (Option Int)
  | none => .ok none
  | some v =>
    match coerceInt v with
    | none => .error (.notAnInteger "age")
    | some n => if 0 ≤ n ∧ n ≤ 120 then .ok (some n) else .error (.outOfRange "age")

/-- The `timestamp` field (src/app.py line 51): required `DateTime`. -/
def validateTimestamp : Option Value → Except FieldError DateTime
  | none => .error (.missingRequired "timestamp")
  | some (.vStr s) =>
    match parseDateTime s with
    | some dt => .ok dt
    | none => .error (.notADateTime "timestamp")
  | some _ => .error (.notADateTime "timestamp")

/-- The four declared fields of `PatientDataSchema`. -/
def knownFields : List String :=
  ["patient_id", "age", "disease", "timestamp"]

/-- marshmallow's default `unknown = RAISE` policy: every key outside the
declared schema fields is an error. -/
def unknownFieldErrors (r : Row) : List FieldError :=
  (r.filter (fun p => !(knownFields.contains p.1))).map (fun p => .unknownField p.1)

/-- The validated record marshmallow's `load` produces for one row. -/
structure PatientRecord where
  patient_id : String
  age : Option Int
  disease : String
  timestamp : DateTime
deriving DecidableEq, Repr

/-- The error side of one field validator. -/
def errsOf {α : Type} : Except FieldError α → List FieldError
  | .ok _ => []
  | .error e => [e]

/-- All field errors marshmallow collects for one row. -/
def rowErrors (r : Row) : List FieldError :=
  errsOf (validatePatientId (getField r "patient_id")) ++
  errsOf (validateAge (getField r "age")) ++
  errsOf (validateDisease (getField r "disease")) ++
  errsOf (validateTimestamp (getField r "timestamp")) ++
  unknownFieldErrors r

/-- `PatientDataSchema().load(row)`: a validated record when every field
passes and no unknown key is present, otherwise the collected errors. -/
def validateRow (r : Row) : Except (List FieldError) PatientRecord :=
  match validatePatientId (getField r "patient_id"), validateAge (getField r "age"),
        validateDisease (getField r "disease"), validateTimestamp (getField r "timestamp"),
        unknownFieldErrors r with
  | .ok pid, .ok a, .ok d, .ok t, [] => .ok ⟨pid, a, d, t⟩
  | _, _, _, _, _ => .error (rowErrors r)

/-- `PatientDataSchema(many=True).load(df.to_dict('records'))` (src/app.py
lines 123-125): validates every row, and raises one `ValidationError`
aggregating the per-index errors when any row fails — the whole batch is
rejected. -/
def validateBatch (rows : List Row) :
    Except (List (Nat × List FieldError)) (List PatientRecord) :=
  if rows.any (fun r => match validateRow r with | .error _ => true | .ok _ => false) then
    .error (rows.enum.filterMap (fun p =>
      match validateRow p.2 with
      | .error es => some (p.1, es)
      | .ok _ => none))
  else
    .ok (rows.filterMap (fun r => (validateRow r).toOption))

/-- Whether a cell is pandas/Spark null. -/
def isNull : Value → Bool
  | .vNull => true
  | _ => false

/-- Whether a row contains any null cell. -/
def hasNull (r : Row) : Bool :=
  r.any (fun p => isNull p.2)

/-- `spark_df.dropna()` (src/app.py line 130): drops every row containing a
null. -/
def dropna (rows : List Row) : List Row :=
  rows.filter (fun r => !hasNull r)

/-- Modelled from the spec, section 6: the durable document store collaborator
(the Cosmos `PatientData` container in the source), exposing
`upsert(key, record)` keyed by `patient_id` (section 3: "used as the upsert
key").  An association list of key/record entries supporting exact read-back. -/
abbrev Store := List (Option Value × Row)

/-- The upsert key of a raw row: its `patient_id` cell. -/
def rowKey (r : Row) : Option Value :=
  getField r "patient_id"

/-- Whether the store already holds an entry for a key. -/
def containsKey (st : Store) (k : Option Value) : Bool :=
  st.any (fun p => decide (p.1 = k))

/-- One `container.upsert_item(row)` call (src/app.py line 132): overwrite the
entry with the row's key if present, else append a new entry. -/
def upsert (st : Store) (r : Row) : Store :=
  if containsKey st (rowKey r) then
    st.map (fun p => if p.1 = rowKey r then (p.1, r) else p)
  else
    st ++ [(rowKey r, r)]

/-- Read-back by key from the store. -/
def lookupStore (st : Store) (k : Option Value) : Option Row :=
  (st.find? (fun p => decide (p.1 = k))).map Prod.snd

/-- The last row of the list whose key is `k`, if any. -/
def lastUpd : List Row → Option Value → Option Row
  | [], _ => none
  | r :: rs, k =>
    match lastUpd rs k with
    | some x => some x
    | none => if rowKey r = k then some r else none

/-- One HTTP upload request as `DataUpload.post` sees it: whether a file part
is attached, its filename, and the rows the CSV parses into. -/
structure UploadRequest where
  hasFile : Bool
  filename : String
  rows : List Row
deriving Repr

/-- The possible responses of `DataUpload.post`, each constructor one of the
source's return statements. -/
inductive UploadResponse where
  | noFile
  | notCsv
  | validationFailed (errs : List (Nat × List FieldError))
  | ok (records : Nat)
  | internalError (msg : String)
deriving DecidableEq, Repr

/-- The HTTP status code of each response. -/
def statusCode : UploadResponse → Nat
  | .noFile => 400
  | .notCsv => 400
  | .validationFailed _ => 400
  | .ok _ => 200
  | .internalError _ => 500

/-- The body of `DataUpload.post` (src/app.py lines 108-141): the no-file and
non-CSV 400 guards, marshmallow batch validation (400 on failure), Spark
`dropna`, the per-row upsert loop over the RAW dataframe's rows, and the 200
response reporting `len(df)` — the row count of the raw dataframe. -/
def dataUploadPost (req : UploadRequest) (st : Store) : UploadResponse × Store :=
  if !req.hasFile then
    (.noFile, st)
  else if !(strEndsWith req.filename ".csv") then
    (.notCsv, st)
  else
    match validateBatch req.rows with
    | .error errs => (.validationFailed errs, st)
    | .ok _ => (.ok req.rows.length, (dropna req.rows).foldl upsert st)

/-- The `except Exception` clause of `DataUpload.post` (src/app.py lines
143-145): an exception with text `e` escaping the try block yields HTTP 500
with body error field `str(e)`; writes issued before the exception are kept. -/
def dataUploadExcept (e : String) (st : Store) : UploadResponse × Store :=
  (.internalError e, st)

/-- The anomaly selection of `Anomalies.get` (src/app.py lines 167-183):
`predict` models the classifier collaborator composed with numeric-feature
extraction (spec section 6: `predict(feature_vector) -> score in [0,1]`,
scores modelled as rationals); the endpoint keeps the queried records whose
score is strictly above the fixed threshold 0.5, and returns an empty list for
an empty dataframe. -/
def anomaliesGet (predict : Row → ℚ) (items : List Row) : List Row :=
  if items.isEmpty then []
  else items.filter (fun r => decide (predict r > 1 / 2))

/-! Lemmas about the validator. -/

/-- In a row with pairwise-distinct keys (a Python dict), membership of a pair
determines the field lookup. -/
theorem getField_nodup (r : Row) (k : String) (v : Value)
    (hnd : (r.map Prod.fst).Nodup) (hm : (k, v) ∈ r) : getField r k = some v := by
  induction r with
  | nil => cases hm
  | cons p ps ih =>
    simp only [List.map_cons, List.nodup_cons] at hnd
    rcases List.mem_cons.mp hm with h | h
    · subst h
      rw [getField, List.find?_cons_of_pos _ (by simp)]
      rfl
    · by_cases hk : p.1 = k
      · exact absurd (hk ▸ List.mem_map_of_mem Prod.fst h) hnd.1
      · rw [getField, List.find?_cons_of_neg _ (by simpa using hk)]
        exact ih hnd.2 h

/-- Inversion of a successful row validation: every field validator succeeded
with the record's field value and no unknown key was present. -/
theorem validateRow_ok_inv (r : Row) (rec : PatientRecord) (h : validateRow r = .ok rec) :
    validatePatientId (getField r "patient_id") = .ok rec.patient_id ∧
    validateAge (getField r "age") = .ok rec.age ∧
    validateDisease (getField r "disease") = .ok rec.disease ∧
    validateTimestamp (getField r "timestamp") = .ok rec.timestamp ∧
    unknownFieldErrors r = [] := by
  unfold validateRow at h
  split at h
  · cases h
    simp_all
  · cases h

/-- A row that marshmallow validates contains no null cell: every key is a
declared schema field and every declared field rejects `NaN`. -/
theorem validateRow_ok_noNull (r : Row) (rec : PatientRecord)
    (hnd : (r.map Prod.fst).Nodup) (h : validateRow r = .ok rec) : hasNull r = false := by
  rcases validateRow_ok_inv r rec h with ⟨hp, ha, hd, ht, hu⟩
  rw [hasNull, List.any_eq_false]
  intro x hm
  obtain ⟨k, v⟩ := x
  intro hnull
  have hv : v = Value.vNull := by cases v <;> simp [isNull] at hnull ⊢
  subst hv
  have hkn : knownFields.contains k = true := by
    by_contra hc
    have h1 : (k, Value.vNull) ∈ r.filter (fun p => !(knownFields.contains p.1)) :=
      List.mem_filter.mpr ⟨hm, by simpa using hc⟩
    have h2 : FieldError.unknownField k ∈ unknownFieldErrors r :=
      List.mem_map.mpr ⟨(k, Value.vNull), h1, rfl⟩
    rw [hu] at h2
    cases h2
  have hg : getField r k = some Value.vNull := getField_nodup r k _ hnd hm
  have hcases : k = "patient_id" ∨ k = "age" ∨ k = "disease" ∨ k = "timestamp" := by
    simpa [knownFields] using hkn
  rcases hcases with h1 | h1 | h1 | h1 <;> subst h1
  · rw [hg] at hp
    simp [validatePatientId, validateRequiredString] at hp
  · rw [hg] at ha
    simp [validateAge, coerceInt] at ha
  · rw [hg] at hd
    simp [validateDisease, validateRequiredString] at hd
  · rw [hg] at ht
    simp [validateTimestamp] at ht

/-- If any row of the batch fails row validation, `schema.load(..., many=True)`
raises: the whole batch is rejected. -/
theorem validateBatch_error_of_mem (rows : List Row) (r : Row) (es : List FieldError)
    (hr : r ∈ rows) (he : validateRow r = .error es) :
    ∃ E, validateBatch rows = .error E := by
  unfold validateBatch
  rw [if_pos (List.any_eq_true.mpr ⟨r, hr, by rw [he]⟩)]
  exact ⟨_, rfl⟩

/-- If the batch validates, every row of it validates. -/
theorem validateBatch_ok_all (rows : List Row) (recs : List PatientRecord)
    (h : validateBatch rows = .ok recs) (r : Row) (hr : r ∈ rows) :
    ∃ rec, validateRow r = .ok rec := by
  unfold validateBatch at h
  split at h
  · cases h
  · rename_i hany
    cases hv : validateRow r with
    | ok rec => exact ⟨rec, rfl⟩
    | error es => exact absurd (List.any_eq_true.mpr ⟨r, hr, by rw [hv]⟩) hany

/-- `dropna` keeps every null-free row. -/
theorem dropna_eq_self (rows : List Row)
    (h : ∀ r ∈ rows, hasNull r = false) : dropna rows = rows := by
  rw [dropna]
  exact List.filter_eq_self.mpr (fun r hr => by rw [h r hr]; rfl)

/-- On a batch whose rows are dicts and which passes validation, the Spark
`dropna` step drops nothing. -/
theorem dropna_of_validateBatch_ok (rows : List Row) (recs : List PatientRecord)
    (hnd : ∀ r ∈ rows, (r.map Prod.fst).Nodup)
    (h : validateBatch rows = .ok recs) : dropna rows = rows := by
  refine dropna_eq_self rows (fun r hr => ?_)
  obtain ⟨rec, hrec⟩ := validateBatch_ok_all rows recs h r hr
  exact validateRow_ok_noNull r rec (hnd r hr) hrec

/-! Lemmas about the modelled durable store. -/

theorem lastUpd_nil (k : Option Value) : lastUpd [] k = none := rfl

theorem lastUpd_cons (r : Row) (rs : List Row) (k : Option Value) :
    lastUpd (r :: rs) k =
      match lastUpd rs k with
      | some x => some x
      | none => if rowKey r = k then some r else none := rfl

theorem lookup_nil (k : Option Value) : lookupStore [] k = none := rfl

theorem lookup_cons_self (p : Option Value × Row) (ps : Store) (k : Option Value)
    (h : p.1 = k) : lookupStore (p :: ps) k = some p.2 := by
  rw [lookupStore, List.find?_cons_of_pos _ (by simp [h])]
  rfl

theorem lookup_cons_ne (p : Option Value × Row) (ps : Store) (k : Option Value)
    (h : ¬ p.1 = k) : lookupStore (p :: ps) k = lookupStore ps k := by
  rw [lookupStore, List.find?_cons_of_neg _ (by simpa using h), lookupStore]

/-- Mapping the in-place overwrite of key `k0` over the store rewrites exactly
the read-back at `k0`. -/
theorem lookup_map_replace (st : Store) (k0 k : Option Value) (r : Row) :
    lookupStore (st.map (fun p => if p.1 = k0 then (p.1, r) else p)) k =
      if k = k0 then (lookupStore st k).map (fun _ => r) else lookupStore st k := by
  induction st with
  | nil => by_cases h : k = k0 <;> simp [lookupStore, h]
  | cons p ps ih =>
    by_cases h0 : p.1 = k0
    · rw [show (p :: ps).map (fun p => if p.1 = k0 then ((p.1 : Option Value), r) else p) =
          (p.1, r) :: ps.map (fun p => if p.1 = k0 then (p.1, r) else p) by simp [h0]]
      by_cases hpk : p.1 = k
      · rw [lookup_cons_self p ps k hpk,
          lookup_cons_self ((p.1 : Option Value), r)
            (ps.map (fun p => if p.1 = k0 then (p.1, r) else p)) k hpk,
          if_pos (hpk.symm.trans h0)]
        rfl
      · rw [lookup_cons_ne p ps k hpk,
          lookup_cons_ne ((p.1 : Option Value), r)
            (ps.map (fun p => if p.1 = k0 then (p.1, r) else p)) k hpk]
        exact ih
    · rw [show (p :: ps).map (fun p => if p.1 = k0 then ((p.1 : Option Value), r) else p) =
          p :: ps.map (fun p => if p.1 = k0 then (p.1, r) else p) by simp [h0]]
      by_cases hpk : p.1 = k
      · rw [lookup_cons_self p ps k hpk,
          lookup_cons_self p (ps.map (fun p => if p.1 = k0 then (p.1, r) else p)) k hpk,
          if_neg (fun hc => h0 (hpk.trans hc))]
      · rw [lookup_cons_ne p ps k hpk,
          lookup_cons_ne p (ps.map (fun p => if p.1 = k0 then (p.1, r) else p)) k hpk]
        exact ih

/-- Appending a fresh entry rewrites only a previously-missing read-back. -/
theorem lookup_append_single (st : Store) (k0 k : Option Value) (r : Row) :
    lookupStore (st ++ [(k0, r)]) k =
      match lookupStore st k with
      | some x => some x
      | none => if k0 = k then some r else none := by
  induction st with
  | nil =>
    rw [List.nil_append, lookup_nil]
    by_cases h : k0 = k
    · rw [lookup_cons_self _ _ _ h, if_pos h]
    · rw [lookup_cons_ne _ _ _ h, lookup_nil, if_neg h]
  | cons p ps ih =>
    by_cases hpk : p.1 = k
    · rw [List.cons_append, lookup_cons_self _ _ _ hpk, lookup_cons_self p ps k hpk]
    · rw [List.cons_append, lookup_cons_ne _ _ _ hpk, lookup_cons_ne p ps k hpk, ih]

theorem containsKey_eq_isSome (st : Store) (k : Option Value) :
    containsKey st k = (lookupStore st k).isSome := by
  induction st with
  | nil => rfl
  | cons p ps ih =>
    by_cases hpk : p.1 = k
    · rw [lookup_cons_self p ps k hpk]
      simp [containsKey, hpk]
    · rw [lookup_cons_ne p ps k hpk, ← ih]
      simp [containsKey, hpk]

/-- The sink contract (spec section 4.3): after one upsert, read-back at the
record's key returns the record, and every other key is untouched. -/
theorem lookup_upsert (st : Store) (r : Row) (k : Option Value) :
    lookupStore (upsert st r) k = if rowKey r = k then some r else lookupStore st k := by
  rw [upsert]
  by_cases hc : containsKey st (rowKey r) = true
  · rw [if_pos hc, lookup_map_replace]
    by_cases hk : rowKey r = k
    · subst hk
      rw [if_pos rfl, if_pos rfl]
      have hs : (lookupStore st (rowKey r)).isSome = true := by
        rw [← containsKey_eq_isSome]
        exact hc
      cases hx : lookupStore st (rowKey r) with
      | some x => rfl
      | none => rw [hx] at hs; cases hs
    · rw [if_neg (fun hc2 => hk hc2.symm), if_neg hk]
  · rw [if_neg hc, lookup_append_single]
    by_cases hk : rowKey r = k
    · subst hk
      have hn : lookupStore st (rowKey r) = none := by
        cases hx : lookupStore st (rowKey r) with
        | none => rfl
        | some x =>
          rw [containsKey_eq_isSome, hx] at hc
          cases hc rfl
      rw [hn]
    · simp only [if_neg hk]
      cases lookupStore st k <;> rfl

/-- Any entry of an upserted store is the new entry or an untouched old one. -/
theorem mem_upsert (st : Store) (r : Row) (p : Option Value × Row)
    (h : p ∈ upsert st r) : p = (rowKey r, r) ∨ (p ∈ st ∧ ¬ p.1 = rowKey r) := by
  rw [upsert] at h
  by_cases hc : containsKey st (rowKey r) = true
  · rw [if_pos hc] at h
    obtain ⟨q, hq, hfq⟩ := List.mem_map.mp h
    by_cases hq1 : q.1 = rowKey r
    · left
      rw [← hfq, if_pos hq1, hq1]
    · right
      rw [← hfq, if_neg hq1]
      exact ⟨hq, hq1⟩
  · rw [if_neg hc] at h
    rcases List.mem_append.mp h with h1 | h1
    · right
      refine ⟨h1, fun hc1 => ?_⟩
      exact hc (List.any_eq_true.mpr ⟨p, h1, by simp [hc1]⟩)
    · left
      simpa using h1

/-- Any entry of the final store is the last batch row for its key, or an
untouched pre-existing entry for a key the batch never wrote. -/
theorem mem_foldl_upsert (rows : List Row) (st : Store) (p : Option Value × Row)
    (h : p ∈ rows.foldl upsert st) :
    lastUpd rows p.1 = some p.2 ∨ (lastUpd rows p.1 = none ∧ p ∈ st) := by
  induction rows generalizing st with
  | nil => exact .inr ⟨rfl, h⟩
  | cons r rs ih =>
    rw [List.foldl_cons] at h
    rcases ih (upsert st r) h with h1 | ⟨h1, h2⟩
    · left
      rw [lastUpd_cons, h1]
    · rcases mem_upsert st r p h2 with h3 | ⟨h3, h4⟩
      · left
        subst h3
        rw [lastUpd_cons]
        rw [show lastUpd rs (rowKey r, r).1 = none from h1]
        rw [if_pos rfl]
      · right
        refine ⟨?_, h3⟩
        rw [lastUpd_cons, h1, if_neg (fun hc => h4 hc.symm)]

/-- Read-back after the upsert loop: the last batch row for the key wins, and
keys the batch never wrote keep their previous value. -/
theorem lookup_foldl_upsert (rows : List Row) (st : Store) (k : Option Value) :
    lookupStore (rows.foldl upsert st) k =
      match lastUpd rows k with
      | some x => some x
      | none => lookupStore st k := by
  induction rows generalizing st with
  | nil => rfl
  | cons r rs ih =>
    rw [List.foldl_cons, ih (upsert st r), lastUpd_cons]
    cases h : lastUpd rs k with
    | some x => rfl
    | none =>
      rw [lookup_upsert]
      by_cases hk : rowKey r = k
      · rw [if_pos hk, if_pos hk]
      · rw [if_neg hk, if_neg hk]

theorem lastUpd_mem (rows : List Row) (k : Option Value) (r : Row)
    (h : lastUpd rows k = some r) : r ∈ rows := by
  induction rows with
  | nil => cases h
  | cons r0 rs ih =>
    rw [lastUpd_cons] at h
    cases h0 : lastUpd rs k with
    | some x =>
      rw [h0] at h
      cases h
      exact List.mem_cons_of_mem _ (ih h0)
    | none =>
      rw [h0] at h
      by_cases hk : rowKey r0 = k
      · rw [if_pos hk] at h
        cases h
        exact List.mem_cons_self _ _
      · rw [if_neg hk] at h
        cases h

theorem lastUpd_isSome_of_mem (rows : List Row) (r : Row) (h : r ∈ rows) :
    ∃ x, lastUpd rows (rowKey r) = some x := by
  induction rows with
  | nil => cases h
  | cons r0 rs ih =>
    rw [lastUpd_cons]
    rcases List.mem_cons.mp h with h1 | h1
    · cases h0 : lastUpd rs (rowKey r) with
      | some x => exact ⟨x, rfl⟩
      | none =>
        subst h1
        exact ⟨r, by rw [if_pos rfl]⟩
    · obtain ⟨x, hx⟩ := ih h1
      exact ⟨x, by rw [hx]⟩

theorem containsKey_foldl_of_mem (rows : List Row) (st : Store) (r : Row) (h : r ∈ rows) :
    containsKey (rows.foldl upsert st) (rowKey r) = true := by
  obtain ⟨x, hx⟩ := lastUpd_isSome_of_mem rows r h
  rw [containsKey_eq_isSome, lookup_foldl_upsert, hx]
  rfl

theorem upsert_of_contains (st : Store) (r : Row) (h : containsKey st (rowKey r) = true) :
    upsert st r = st.map (fun p => if p.1 = rowKey r then (p.1, r) else p) := by
  rw [upsert, if_pos h]

theorem containsKey_map_replace (st : Store) (k0 k : Option Value) (x : Row) :
    containsKey (st.map (fun p => if p.1 = k0 then (p.1, x) else p)) k = containsKey st k := by
  rw [containsKey_eq_isSome, containsKey_eq_isSome, lookup_map_replace]
  by_cases h : k = k0
  · rw [if_pos h]
    cases lookupStore st k <;> rfl
  · rw [if_neg h]

theorem map_self_of_fix {α : Type} (l : List α) (f : α → α) (h : ∀ a ∈ l, f a = a) :
    l.map f = l := by
  induction l with
  | nil => rfl
  | cons a as ih =>
    rw [List.map_cons, h a (List.mem_cons_self _ _), ih (fun b hb => h b (List.mem_cons_of_mem _ hb))]

/-- Replaying a batch over a store that already has every batch key performs
only in-place overwrites, rewriting each entry to the last batch row for its
key. -/
theorem foldl_upsert_replace (rows : List Row) (st : Store)
    (h : ∀ r ∈ rows, containsKey st (rowKey r) = true) :
    rows.foldl upsert st = st.map (fun p =>
      match lastUpd rows p.1 with
      | some x => (p.1, x)
      | none => p) := by
  induction rows generalizing st with
  | nil =>
    rw [List.foldl_nil]
    exact (map_self_of_fix st _ (fun p _ => by rw [lastUpd_nil])).symm
  | cons r rs ih =>
    rw [List.foldl_cons, upsert_of_contains st r (h r (List.mem_cons_self _ _)),
      ih _ (fun r' hr' => by
        rw [containsKey_map_replace]
        exact h r' (List.mem_cons_of_mem _ hr')),
      List.map_map]
    have hfun : ((fun p : Option Value × Row =>
        match lastUpd rs p.1 with
        | some x => (p.1, x)
        | none => p) ∘ (fun p => if p.1 = rowKey r then (p.1, r) else p)) =
        (fun p : Option Value × Row =>
          match lastUpd (r :: rs) p.1 with
          | some x => (p.1, x)
          | none => p) := by
      funext p
      by_cases hp : p.1 = rowKey r
      · simp only [Function.comp_apply, if_pos hp, lastUpd_cons]
        cases h0 : lastUpd rs p.1 with
        | some x => rfl
        | none => rw [if_pos hp.symm]
      · simp only [Function.comp_apply, if_neg hp, lastUpd_cons]
        cases h0 : lastUpd rs p.1 with
        | some x => rfl
        | none => rw [if_neg (fun hc => hp hc.symm)]
    rw [hfun]

/-- Replaying the same batch over the store it produced changes nothing: the
upsert loop is idempotent at the level of full store states. -/
theorem foldl_upsert_idem (rows : List Row) (st : Store) :
    rows.foldl upsert (rows.foldl upsert st) = rows.foldl upsert st := by
  rw [foldl_upsert_replace rows _ (fun r hr => containsKey_foldl_of_mem rows st r hr)]
  refine map_self_of_fix _ _ (fun p hp => ?_)
  rcases mem_foldl_upsert rows st p hp with h1 | ⟨h1, _⟩
  · rw [h1]
  · rw [h1]

/-- Inversion of a 200 response: both guards passed, the batch validated, the
reported count is the raw dataframe's row count, and the final store is the
upsert fold over the null-free raw rows. -/
theorem post_ok_inv (req : UploadRequest) (st : Store) (n : Nat)
    (h : (dataUploadPost req st).1 = .ok n) :
    req.hasFile = true ∧ strEndsWith req.filename ".csv" = true ∧
    (∃ recs, validateBatch req.rows = .ok recs) ∧ n = req.rows.length ∧
    (dataUploadPost req st).2 = (dropna req.rows).foldl upsert st := by
  cases hf : req.hasFile with
  | false => rw [dataUploadPost, hf] at h; simp at h
  | true =>
    cases hcsv : strEndsWith req.filename ".csv" with
    | false => rw [dataUploadPost, hf, hcsv] at h; simp at h
    | true =>
      cases hv : validateBatch req.rows with
      | error E =>
        rw [dataUploadPost, hf, hcsv] at h
        simp only [Bool.not_true, Bool.false_eq_true, if_false] at h
        rw [hv] at h
        cases h
      | ok recs =>
        rw [dataUploadPost, hf, hcsv] at h ⊢
        simp only [Bool.not_true, Bool.false_eq_true, if_false] at h ⊢
        rw [hv] at h ⊢
        cases h
        exact ⟨trivial, trivial, ⟨recs, rfl⟩, rfl, rfl⟩

/-- When both request guards pass and the batch validates, `DataUpload.post`
returns 200 with `len(df)` and folds the upsert loop over the null-free raw
rows. -/
theorem post_validated (req : UploadRequest) (st : Store) (recs : List PatientRecord)
    (hf : req.hasFile = true) (hcsv : strEndsWith req.filename ".csv" = true)
    (hv : validateBatch req.rows = .ok recs) :
    dataUploadPost req st = (.ok req.rows.length, (dropna req.rows).foldl upsert st) := by
  rw [dataUploadPost, hf, hcsv]
  simp only [Bool.not_true, Bool.false_eq_true, if_false]
  rw [hv]

/-- When both request guards pass and the batch fails validation, the whole
request is answered 400 and the store is untouched. -/
theorem post_validation_failed (req : UploadRequest) (st : Store)
    (E : List (Nat × List FieldError))
    (hf : req.hasFile = true) (hcsv : strEndsWith req.filename ".csv" = true)
    (hE : validateBatch req.rows = .error E) :
    dataUploadPost req st = (.validationFailed E, st) := by
  rw [dataUploadPost, hf, hcsv]
  simp only [Bool.not_true, Bool.false_eq_true, if_false]
  rw [hE]

/-- A failing `age` field makes the whole row validation fail. -/
theorem validateRow_error_of_age (r : Row) (e : FieldError)
    (h : validateAge (getField r "age") = .error e) :
    validateRow r = .error (rowErrors r) := by
  unfold validateRow
  rw [h]
  cases validatePatientId (getField r "patient_id") <;> rfl

/-! Concrete rows and requests exercised by the counterexamples and
witnesses.  `exRow1`/`exRow2` are the spec's dedup-scenario rows
(section 8). -/

def exRow1 : Row :=
  [("patient_id", .vStr "p1"), ("age", .vInt 45),
   ("disease", .vStr "flu"), ("timestamp", .vStr "2024-01-01T00:00:00Z")]

def exRow2 : Row :=
  [("patient_id", .vStr "p1"), ("age", .vInt 46),
   ("disease", .vStr "flu"), ("timestamp", .vStr "2024-01-02T00:00:00Z")]

def exRec1 : PatientRecord := ⟨"p1", some 45, "flu", ⟨2024, 1, 1, 0, 0, 0⟩⟩

def exRec2 : PatientRecord := ⟨"p1", some 46, "flu", ⟨2024, 1, 2, 0, 0, 0⟩⟩

/-- The spec's dedup example batch: 2024-01-01 row first, 2024-01-02 second. -/
def c1SpecReq : UploadRequest := ⟨true, "data.csv", [exRow1, exRow2]⟩

/-- The same two rows with the later timestamp FIRST in the batch. -/
def c1Req : UploadRequest := ⟨true, "data.csv", [exRow2, exRow1]⟩

/-- A row whose `age` is out of range. -/
def c2BadRow : Row :=
  [("patient_id", .vStr "p2"), ("age", .vInt 200),
   ("disease", .vStr "flu"), ("timestamp", .vStr "2024-01-01T00:00:00Z")]

/-- A two-row batch whose row 0 fails validation and row 1 is valid. -/
def c2Req : UploadRequest := ⟨true, "data.csv", [c2BadRow, exRow1]⟩

/-- A row whose `patient_id` is the empty string, otherwise valid. -/
def c3Row : Row :=
  [("patient_id", .vStr ""), ("age", .vInt 30),
   ("disease", .vStr "flu"), ("timestamp", .vStr "2024-01-01T00:00:00Z")]

def c3Req : UploadRequest := ⟨true, "data.csv", [c3Row]⟩

/-- A row with no `patient_id` key at all. -/
def c3MissingRow : Row :=
  [("age", .vInt 30), ("disease", .vStr "flu"),
   ("timestamp", .vStr "2024-01-01T00:00:00Z")]

/-- A row whose `age` is the float 45.5 — present but not an integer. -/
def c4Row : Row :=
  [("patient_id", .vStr "p1"), ("age", .vFloat (mkRat 91 2)),
   ("disease", .vStr "flu"), ("timestamp", .vStr "2024-01-01T00:00:00Z")]

def c4Req : UploadRequest := ⟨true, "data.csv", [c4Row]⟩

/-- A single-row batch for an out-of-range age. -/
def c4WitReq : UploadRequest := ⟨true, "data.csv", [c2BadRow]⟩

/-- A valid single-row batch. -/
def c6Req : UploadRequest := ⟨true, "data.csv", [exRow1]⟩

/-! The claims. -/

/-- C1, counterexample: for the two-row batch for `p1` with the later
timestamp (2024-01-02, age 46) FIRST and the earlier one (2024-01-01, age 45)
second, the code persists the LAST row in batch order — the record surviving
in the store has age 45 and timestamp 2024-01-01, not the later-timestamp one
the claim requires. -/
theorem c1_counterexample :
    (dataUploadPost c1Req []).2 = [(some (Value.vStr "p1"), exRow1)] ∧
    getField exRow1 "age" = some (Value.vInt 45) ∧
    getField exRow1 "timestamp" = some (Value.vStr "2024-01-01T00:00:00Z") := by
  decide

/-- C1, amended: the code has no timestamp-based dedup; for every key the
record persisted is the LAST row of the (null-free) batch with that
`patient_id`, regardless of timestamps, and keys the batch never wrote keep
their prior stored value.  On the spec's example batch the last occurrence is
also the later timestamp, so its expected outcome still holds. -/
theorem c1_last_occurrence_wins (req : UploadRequest) (st : Store)
    (recs : List PatientRecord)
    (hf : req.hasFile = true) (hcsv : strEndsWith req.filename ".csv" = true)
    (hv : validateBatch req.rows = .ok recs) (k : Option Value) :
    lookupStore ((dataUploadPost req st).2) k =
      match lastUpd (dropna req.rows) k with
      | some r => some r
      | none => lookupStore st k := by
  rw [congrArg Prod.snd (post_validated req st recs hf hcsv hv)]
  exact lookup_foldl_upsert _ st k

/-- C1, witness: on the spec's example batch (2024-01-01 first, 2024-01-02
second) the surviving record for `p1` is `exRow2` — age 46, timestamp
2024-01-02 — because it is the last occurrence. -/
theorem c1_witness :
    lookupStore ((dataUploadPost c1SpecReq []).2) (some (Value.vStr "p1")) = some exRow2 := by
  have h := c1_last_occurrence_wins c1SpecReq [] [exRec1, exRec2]
    (by decide) (by decide) (by decide) (some (Value.vStr "p1"))
  rw [h]
  decide

/-- C2, counterexample: for the two-row batch whose row 0 fails validation
(age 200) and whose row 1 is valid, the code answers 400 for the whole batch
with an aggregated error report, and persists nothing — there is no per-row
outcome report with N-1 `Accepted` entries, and the valid row after the
failing index is NOT processed. -/
theorem c2_counterexample :
    statusCode (dataUploadPost c2Req []).1 = 400 ∧
    (dataUploadPost c2Req []).2 = [] ∧
    (dataUploadPost c2Req []).1 =
      .validationFailed [(0, [FieldError.outOfRange "age"])] := by
  decide

/-- C2, amended: a batch containing any row that fails validation is rejected
whole: `marshmallow.load(..., many=True)` raises, the service answers HTTP 400,
no per-row outcome report is produced, and no row of the batch (valid or not)
is persisted. -/
theorem c2_whole_batch_rejected (req : UploadRequest) (st : Store) (r : Row)
    (es : List FieldError) (hr : r ∈ req.rows) (he : validateRow r = .error es)
    (hf : req.hasFile = true) (hcsv : strEndsWith req.filename ".csv" = true) :
    statusCode (dataUploadPost req st).1 = 400 ∧ (dataUploadPost req st).2 = st := by
  obtain ⟨E, hE⟩ := validateBatch_error_of_mem req.rows r es hr he
  rw [post_validation_failed req st E hf hcsv hE]
  exact ⟨rfl, rfl⟩

/-- C2, witness: the amended behaviour at the concrete two-row batch. -/
theorem c2_witness :
    statusCode (dataUploadPost c2Req []).1 = 400 ∧ (dataUploadPost c2Req []).2 = [] :=
  c2_whole_batch_rejected c2Req [] c2BadRow (rowErrors c2BadRow)
    (by decide) (by decide) (by decide) (by decide)

/-- C3, counterexample: a row whose `patient_id` is the empty string passes
the marshmallow validator (`String(required=True)` accepts `""`), the upload
answers 200, and the empty-keyed record IS passed to the sink and stored. -/
theorem c3_counterexample :
    validatePatientId (getField c3Row "patient_id") = .ok "" ∧
    statusCode (dataUploadPost c3Req []).1 = 200 ∧
    (dataUploadPost c3Req []).2 = [(some (Value.vStr ""), c3Row)] := by
  decide

/-- C3, amended: only a MISSING `patient_id` key is rejected, with the
required-field error (the spec's `MissingField("patient_id")`); an empty-string
`patient_id` is accepted and can reach the sink. -/
theorem c3_missing_patient_id_rejected (r : Row)
    (h : getField r "patient_id" = none) :
    ∃ es, validateRow r = .error es ∧ FieldError.missingRequired "patient_id" ∈ es := by
  have hp : validatePatientId (getField r "patient_id") =
      .error (.missingRequired "patient_id") := by
    rw [h]
    rfl
  refine ⟨rowErrors r, ?_, ?_⟩
  · unfold validateRow
    rw [hp]
  · rw [rowErrors, hp]
    simp [errsOf]

/-- C3, witness: the amended behaviour at a concrete row with no
`patient_id` key. -/
theorem c3_witness :
    ∃ es, validateRow c3MissingRow = .error es ∧
      FieldError.missingRequired "patient_id" ∈ es :=
  c3_missing_patient_id_rejected c3MissingRow (by decide)

/-- C4, counterexample: the row whose `age` is 45.5 — present but not an
integer in [0,120] — is NOT rejected: marshmallow's non-strict `Integer`
truncates it to 45, validation succeeds, the upload answers 200 and the row
reaches the sink. -/
theorem c4_counterexample :
    validateRow c4Row = .ok ⟨"p1", some 45, "flu", ⟨2024, 1, 1, 0, 0, 0⟩⟩ ∧
    statusCode (dataUploadPost c4Req []).1 = 200 ∧
    (dataUploadPost c4Req []).2 = [(some (Value.vStr "p1"), c4Row)] := by
  decide

/-- C4, amended: when the `age` value coerces to an integer (Python `int()`:
ints, numeric strings, floats truncated toward zero) whose result lies outside
[0,120], the validator reports `OutOfRange("age")`, the whole batch is
rejected with HTTP 400, and no row reaches the sink (the store is untouched);
non-coercible age values are rejected as not-an-integer instead, and floats
with in-range truncations pass. -/
theorem c4_out_of_range_rejected (req : UploadRequest) (st : Store) (r : Row)
    (v : Value) (n : Int) (hr : r ∈ req.rows)
    (hv : getField r "age" = some v) (hc : coerceInt v = some n)
    (hn : n < 0 ∨ 120 < n)
    (hf : req.hasFile = true) (hcsv : strEndsWith req.filename ".csv" = true) :
    FieldError.outOfRange "age" ∈ rowErrors r ∧
    statusCode (dataUploadPost req st).1 = 400 ∧
    (dataUploadPost req st).2 = st := by
  have ha : validateAge (getField r "age") = .error (.outOfRange "age") := by
    have hn2 : ¬(0 ≤ n ∧ n ≤ 120) := by
      rintro ⟨h1, h2⟩
      rcases hn with h | h <;> omega
    rw [hv]
    simp [validateAge, hc, hn2]
  have he : validateRow r = .error (rowErrors r) := validateRow_error_of_age r _ ha
  obtain ⟨E, hE⟩ := validateBatch_error_of_mem req.rows r _ hr he
  refine ⟨?_, ?_, ?_⟩
  · rw [rowErrors, ha]
    simp [errsOf]
  · rw [post_validation_failed req st E hf hcsv hE]
    rfl
  · rw [post_validation_failed req st E hf hcsv hE]

/-- C4, witness: the amended behaviour at a concrete single-row batch with
age 200. -/
theorem c4_witness :
    FieldError.outOfRange "age" ∈ rowErrors c2BadRow ∧
    statusCode (dataUploadPost c4WitReq []).1 = 400 ∧
    (dataUploadPost c4WitReq []).2 = [] :=
  c4_out_of_range_rejected c4WitReq [] c2BadRow (Value.vInt 200) 200
    (by decide) (by decide) (by decide) (Or.inr (by decide)) (by decide) (by decide)

/-- C5 (confirmed): applying `DataUpload.post` to the same request twice
leaves the modelled durable store in exactly the state one application
produces — the ingestion of a fixed batch is idempotent. -/
theorem c5_idempotent (req : UploadRequest) (st : Store) :
    (dataUploadPost req ((dataUploadPost req st).2)).2 = (dataUploadPost req st).2 := by
  cases hf : req.hasFile with
  | false => simp [dataUploadPost, hf]
  | true =>
    cases hcsv : strEndsWith req.filename ".csv" with
    | false => simp [dataUploadPost, hf, hcsv]
    | true =>
      cases hv : validateBatch req.rows with
      | error E =>
        have hsnd : (dataUploadPost req st).2 = st :=
          congrArg Prod.snd (post_validation_failed req st E hf hcsv hv)
        rw [hsnd]
        exact hsnd
      | ok recs =>
        have hsnd : (dataUploadPost req st).2 = (dropna req.rows).foldl upsert st :=
          congrArg Prod.snd (post_validated req st recs hf hcsv hv)
        rw [hsnd,
          congrArg Prod.snd
            (post_validated req ((dropna req.rows).foldl upsert st) recs hf hcsv hv)]
        exact foldl_upsert_idem (dropna req.rows) st

/-- C6 (confirmed): whenever the upload completes with HTTP 200, the reported
`records` value is the raw batch's row count, the `dropna` step drops nothing
(validated batches contain no nulls), and therefore every one of those
`records` rows is fed to the upsert sink. -/
theorem c6_records_eq_persisted (req : UploadRequest) (st : Store) (n : Nat)
    (hnd : ∀ r ∈ req.rows, (r.map Prod.fst).Nodup)
    (hok : (dataUploadPost req st).1 = .ok n) :
    n = req.rows.length ∧ dropna req.rows = req.rows ∧
    (dataUploadPost req st).2 = req.rows.foldl upsert st := by
  obtain ⟨hf, hcsv, ⟨recs, hv⟩, hn, hst⟩ := post_ok_inv req st n hok
  have hd : dropna req.rows = req.rows := dropna_of_validateBatch_ok req.rows recs hnd hv
  exact ⟨hn, hd, by rw [hst, hd]⟩

/-- C6, witness: the concrete valid single-row upload reports `records = 1`
and upserts that one row. -/
theorem c6_witness :
    1 = c6Req.rows.length ∧ dropna c6Req.rows = c6Req.rows ∧
    (dataUploadPost c6Req []).2 = c6Req.rows.foldl upsert [] :=
  c6_records_eq_persisted c6Req [] 1 (by decide) (by decide)

/-- C7, counterexample: the 500 handler's response body carries the exception
text verbatim — two different internal exceptions produce two different
response bodies, so the message is neither generic nor free of internal
detail. -/
theorem c7_counterexample :
    (dataUploadExcept "Unauthorized Cosmos key" []).1 =
      UploadResponse.internalError "Unauthorized Cosmos key" ∧
    (dataUploadExcept "a" []).1 ≠ (dataUploadExcept "b" []).1 := by
  exact ⟨rfl, by decide⟩

/-- C7, amended: an unexpected internal error with text `e` is answered with
HTTP 500 whose body error field is exactly `str(e)` — the exception text IS
exposed to the caller (and the store keeps whatever writes preceded the
exception). -/
theorem c7_exposes_exception (e : String) (st : Store) :
    statusCode (dataUploadExcept e st).1 = 500 ∧
    (dataUploadExcept e st).1 = .internalError e ∧
    (dataUploadExcept e st).2 = st :=
  ⟨rfl, rfl, rfl⟩

/-- C8 (confirmed): a request with no file attached, or with a filename not
ending in `.csv`, is answered HTTP 400, the store is untouched (no sink
call), and the outcome is independent of the request's rows — no row
processing happens. -/
theorem c8_bad_request_no_processing (req : UploadRequest) (st : Store)
    (h : req.hasFile = false ∨ strEndsWith req.filename ".csv" = false) :
    statusCode (dataUploadPost req st).1 = 400 ∧
    (dataUploadPost req st).2 = st ∧
    ∀ rows2 : List Row,
      dataUploadPost ⟨req.hasFile, req.filename, rows2⟩ st = dataUploadPost req st := by
  rcases h with h | h
  · refine ⟨?_, ?_, ?_⟩ <;> simp [dataUploadPost, statusCode, h]
  · cases hf : req.hasFile with
    | false => refine ⟨?_, ?_, ?_⟩ <;> simp [dataUploadPost, statusCode, hf]
    | true => refine ⟨?_, ?_, ?_⟩ <;> simp [dataUploadPost, statusCode, hf, h]

/-- C8, witness: the no-file request at concrete inputs. -/
theorem c8_witness :
    statusCode (dataUploadPost ⟨false, "data.csv", [exRow1]⟩ []).1 = 400 ∧
    (dataUploadPost ⟨false, "data.csv", [exRow1]⟩ []).2 = [] :=
  ⟨(c8_bad_request_no_processing ⟨false, "data.csv", [exRow1]⟩ [] (Or.inl rfl)).1,
   (c8_bad_request_no_processing ⟨false, "data.csv", [exRow1]⟩ [] (Or.inl rfl)).2.1⟩

/-- C9 (confirmed): a record returned by the anomalies endpoint's store query
is in the response's anomaly list exactly when the classifier's score for it
is strictly greater than the fixed threshold 0.5. -/
theorem c9_threshold (predict : Row → ℚ) (items : List Row) (r : Row)
    (hr : r ∈ items) :
    r ∈ anomaliesGet predict items ↔ predict r > 1 / 2 := by
  rw [anomaliesGet,
    if_neg (fun hc => by rw [List.isEmpty_iff.mp hc] at hr; cases hr)]
  simp [List.mem_filter, hr]

/-- C9, witness: with a classifier scoring 3/4, a queried record is flagged. -/
theorem c9_witness :
    ([] : Row) ∈ anomaliesGet (fun _ => (3 : ℚ) / 4) [([] : Row)] :=
  (c9_threshold (fun _ => (3 : ℚ) / 4) [[]] [] (List.mem_cons_self _ _)).mpr
    (by norm_num)

/-- C10 (confirmed): on a validated upload the final store is the upsert fold
over the raw parsed rows (after `dropna`) — the validated records `recs` are
discarded — and every record read back from the final store is verbatim one of
the raw batch rows or a previously stored record. -/
theorem c10_raw_rows_persisted (req : UploadRequest) (st : Store)
    (recs : List PatientRecord)
    (hf : req.hasFile = true) (hcsv : strEndsWith req.filename ".csv" = true)
    (hv : validateBatch req.rows = .ok recs) :
    (dataUploadPost req st).2 = (dropna req.rows).foldl upsert st ∧
    ∀ k r2, lookupStore ((dataUploadPost req st).2) k = some r2 →
      r2 ∈ req.rows ∨ lookupStore st k = some r2 := by
  have hsnd : (dataUploadPost req st).2 = (dropna req.rows).foldl upsert st :=
    congrArg Prod.snd (post_validated req st recs hf hcsv hv)
  refine ⟨hsnd, fun k r2 hl => ?_⟩
  rw [hsnd, lookup_foldl_upsert] at hl
  cases hlast : lastUpd (dropna req.rows) k with
  | some x =>
    rw [hlast] at hl
    cases hl
    exact Or.inl (List.mem_of_mem_filter (lastUpd_mem _ _ _ hlast))
  | none =>
    rw [hlast] at hl
    exact Or.inr hl

/-- C10, witness: the valid single-row upload stores exactly the raw row. -/
theorem c10_witness :
    (dataUploadPost c6Req []).2 = (dropna c6Req.rows).foldl upsert [] :=
  (c10_raw_rows_persisted c6Req [] [exRec1] (by decide) (by decide) (by decide)).1
